import Mathlib

/-!
Verification of the TermIdle idle-game core: a shallow embedding of the Go
sources (internal/game/state.go, internal/game/upgrades.go,
internal/game/story.go, internal/ssh server/session/middleware files,
internal/db/sqlite.go) together with theorems about the embedded code.

Modelling conventions:
* Go `float64` values are modelled as exact rationals (`ℚ`); the single
  place the code produces `math.Inf(1)` is modelled by the two-constructor
  type `CostValue`.
* Go `int` is modelled as `ℤ`.
* `time.Time` values are modelled as rationals (seconds); `t.IsZero()` is
  modelled as `t = 0`.
* Go maps are modelled as association lists with insert-or-replace update,
  so map contents (including key sets) are preserved exactly.
-/

namespace TermIdle

/-- state.go: `BaseKeystrokesPerSecond = 1.0`. -/
def BaseKeystrokesPerSecond : ℚ := 1

/-- state.go: `WordFormationCost = 100.0`. -/
def WordFormationCost : ℚ := 100

/-- Go `float64` cost values: every value produced by `CalculateCost` is
either a finite number or `math.Inf(1)` (returned when `level > MaxLevel`). -/
inductive CostValue where
  | finite (q : ℚ)
  | posInf
deriving DecidableEq, Repr

/-- state.go `StoryChapter`. -/
structure StoryChapter where
  id : Int
  title : String
  content : String
  triggerLevel : Int
  unlocks : List String
  isRead : Bool
deriving DecidableEq, Repr

/-- state.go `Upgrade` (a purchased upgrade record). -/
structure Upgrade where
  id : String
  type : String
  level : Int
  cost : CostValue
  effect : ℚ
  description : String
  purchasedAt : ℚ
deriving DecidableEq, Repr

/-- story.go `StoryManager`: the chapter catalog plus the set of unlocked
chapter IDs (Go `map[int]bool`, modelled by the list of keys mapped to
`true`). -/
structure StoryManager where
  chapters : List StoryChapter
  unlocked : List Int
deriving DecidableEq, Repr

/-- state.go `GameState`. `Upgrades map[string]*Upgrade` is modelled as an
association list with unique keys. -/
structure GameState where
  playerID : String
  currentLevel : Int
  keystrokes : ℚ
  words : Int
  programs : Int
  aiAutomations : Int
  storyProgress : Int
  productionRate : ℚ
  keystrokesPerSecond : ℚ
  lastSave : ℚ
  lastUpdate : ℚ
  notifications : List String
  upgrades : List (String × Upgrade)
  storyManager : StoryManager
deriving DecidableEq, Repr

/-- story.go `getStoryChapters`: the immutable chapter catalog. -/
def getStoryChapters : List StoryChapter :=
  [ { id := 1
    , title := "The Beginning"
    , content := "In a digital jungle, a young monkey discovers a keyboard. Random keystrokes echo through the void as our hero begins their journey into the world of programming. Every keystroke is a step toward enlightenment."
    , triggerLevel := 1
    , unlocks := []
    , isRead := false }
  , { id := 2
    , title := "Pattern Recognition"
    , content := "After countless random taps, something changes. The monkey starts seeing patterns in the chaos. Letters form recognizable shapes, and the concept of \x27language\x27 begins to emerge. This is the first step toward true understanding."
    , triggerLevel := 5
    , unlocks := ["vocabulary_boost"]
    , isRead := false }
  , { id := 3
    , title := "First Words"
    , content := "\"Hello\" appears on screen! The monkey gasps (in a metaphorical sense). Words have power, meaning, and structure. Each word formed is a victory against randomness, a step toward meaningful communication."
    , triggerLevel := 10
    , unlocks := ["word_formation"]
    , isRead := false }
  , { id := 4
    , title := "The Loop of Understanding"
    , content := "The monkey discovers loops - the ability to repeat actions efficiently. With each loop, knowledge compounds exponentially. This is the moment when our hero realizes that automation is the key to transcendence."
    , triggerLevel := 15
    , unlocks := ["basic_programming"]
    , isRead := false }
  , { id := 5
    , title := "Function Enlightenment"
    , content := "Functions! The monkey learns to package knowledge into reusable blocks of wisdom. Each function is a tool, a building block for greater creations. The journey from random typing to intentional programming accelerates."
    , triggerLevel := 20
    , unlocks := ["advanced_programming"]
    , isRead := false }
  , { id := 6
    , title := "The Algorithm Age"
    , content := "Our hero no longer just writes code - they create algorithms. Efficient, elegant solutions to complex problems. The monkey understands that programming isn\x27t just about making things work, it\x27s about making them work beautifully."
    , triggerLevel := 30
    , unlocks := ["algorithm_mastery"]
    , isRead := false }
  , { id := 7
    , title := "Database Consciousness"
    , content := "The monkey discovers the power of persistent knowledge. Data that survives beyond the current session, information that accumulates over time. This is digital immortality, the ability to build something that lasts."
    , triggerLevel := 40
    , unlocks := ["data_mastery"]
    , isRead := false }
  , { id := 8
    , title := "Network Awakening"
    , content := "Individual achievement is wonderful, but the monkey learns that true power comes from connection. Other programs, other minds, other monkeys working together. The network becomes a collective consciousness, a shared digital ecosystem."
    , triggerLevel := 50
    , unlocks := ["network_programming"]
    , isRead := false }
  , { id := 9
    , title := "AI Integration"
    , content := "The ultimate revelation: the monkey can create thinking machines! AI automations that learn, adapt, and grow. Our hero has transcended from random keystrokes to creating intelligence itself. The student becomes the master."
    , triggerLevel := 60
    , unlocks := ["ai_automation"]
    , isRead := false }
  , { id := 10
    , title := "Digital Transcendence"
    , content := "The monkey has become more than a monkey - they are a digital architect, a creator of worlds, a master of code. From random keystrokes to structured thought, from simple loops to AI creation. The journey is complete, but the evolution continues. What new worlds will you create?"
    , triggerLevel := 75
    , unlocks := ["transcendence"]
    , isRead := false } ]

/-- story.go `NewStoryManager`: catalog plus the first chapter unlocked by
default. -/
def newStoryManager : StoryManager :=
  { chapters := getStoryChapters, unlocked := [1] }

/-- state.go `NewGameState` (`time.Now()` is passed in as `now`). -/
def newGameState (playerID : String) (now : ℚ) : GameState :=
  { playerID := playerID
  , currentLevel := 1
  , keystrokes := 0
  , words := 0
  , programs := 0
  , aiAutomations := 0
  , storyProgress := 0
  , productionRate := BaseKeystrokesPerSecond
  , keystrokesPerSecond := BaseKeystrokesPerSecond
  , lastSave := now
  , lastUpdate := now
  , notifications := []
  , upgrades := []
  , storyManager := newStoryManager }

/-- state.go `CalculateProduction` / `CalculateProductionWithUpgradeManager(nil)`:
base rate + word/program/AI bonuses + the sum of each stored upgrade
`Effect` value (the nil-manager fallback path, which is the one `UpdateResources`
and `UpdateProduction` use). -/
def calculateProduction (gs : GameState) : ℚ :=
  gs.keystrokesPerSecond
    + (gs.words : ℚ) * (3 / 2)
    + (gs.programs : ℚ) * 10
    + (gs.aiAutomations : ℚ) * 100
    + (gs.upgrades.map (fun p => p.2.effect)).sum

/-- state.go `UpdateProduction`. -/
def updateProduction (gs : GameState) : GameState :=
  { gs with productionRate := calculateProduction gs }

/-- state.go `AddNotification`: append, then keep only the last 10. -/
def pushNotification (ns : List String) (msg : String) : List String :=
  let l := ns ++ [msg]
  if 10 < l.length then l.drop (l.length - 10) else l

/-- state.go `AddNotification` on a game state. -/
def addNotification (gs : GameState) (msg : String) : GameState :=
  { gs with notifications := pushNotification gs.notifications msg }

/-- state.go `CanAfford` for a finite cost. -/
def canAfford (gs : GameState) (cost : ℚ) : Bool :=
  cost ≤ gs.keystrokes

/-- `CanAfford` applied to a possibly-infinite `CalculateCost` result: a Go
float comparison `Keystrokes >= +Inf` is always false. -/
def canAffordCost (gs : GameState) : CostValue → Bool
  | CostValue.finite q => canAfford gs q
  | CostValue.posInf => false

/-- state.go `SpendResources`: deduct only when affordable. -/
def spendResources (gs : GameState) (amount : ℚ) : GameState :=
  if canAfford gs amount then { gs with keystrokes := gs.keystrokes - amount } else gs

/-- `SpendResources` applied to a possibly-infinite cost. -/
def spendResourcesCost (gs : GameState) : CostValue → GameState
  | CostValue.finite q => spendResources gs q
  | CostValue.posInf => gs

/-- state.go `TryFormResources`, first loop:
`for Keystrokes >= WordFormationCost { Keystrokes -= cost; Words++; notify }`. -/
def formWords (k : ℚ) (w : Int) (ns : List String) : ℚ × Int × List String :=
  if h : WordFormationCost ≤ k then
    formWords (k - WordFormationCost) (w + 1) (pushNotification ns "✨ Formed a word!")
  else (k, w, ns)
termination_by (⌊k / WordFormationCost⌋).toNat
decreasing_by
  have hc : (0 : ℚ) < WordFormationCost := by norm_num [WordFormationCost]
  have h1 : (1 : ℚ) ≤ k / WordFormationCost := (le_div_iff₀ hc).mpr (by linarith)
  have h2 : (k - WordFormationCost) / WordFormationCost = k / WordFormationCost - 1 := by
    field_simp
  have h3 : ⌊k / WordFormationCost - 1⌋ = ⌊k / WordFormationCost⌋ - 1 := Int.floor_sub_one _
  have h4 : (1 : ℤ) ≤ ⌊k / WordFormationCost⌋ := Int.le_floor.mpr (by exact_mod_cast h1)
  rw [h2, h3]
  omega

/-- state.go `TryFormResources`, second loop:
`for Words >= 10 { Words -= 10; Programs++; notify }`. -/
def formPrograms (w : Int) (p : Int) (ns : List String) : Int × Int × List String :=
  if h : 10 ≤ w then
    formPrograms (w - 10) (p + 1) (pushNotification ns "🚀 Created a program!")
  else (w, p, ns)
termination_by w.toNat
decreasing_by omega

/-- state.go `TryFormResources`, third loop:
`for Programs >= 5 { Programs -= 5; AIAutomations++; notify }`. -/
def formAIs (p : Int) (ai : Int) (ns : List String) : Int × Int × List String :=
  if h : 5 ≤ p then
    formAIs (p - 5) (ai + 1) (pushNotification ns "🤖 Built an AI automation!")
  else (p, ai, ns)
termination_by p.toNat
decreasing_by omega

/-- state.go `TryFormResources`: the three conversion loops run in sequence. -/
def tryFormResources (gs : GameState) : GameState :=
  let r1 := formWords gs.keystrokes gs.words gs.notifications
  let r2 := formPrograms r1.2.1 gs.programs r1.2.2
  let r3 := formAIs r2.2.1 gs.aiAutomations r2.2.2
  { gs with
    keystrokes := r1.1
    words := r2.1
    programs := r3.1
    aiAutomations := r3.2.1
    notifications := r3.2.2 }

/-- state.go `UpdateResources`: on a zero `LastUpdate` just stamp the time;
otherwise add `CalculateProduction() * elapsed` keystrokes, stamp the time and
settle via `TryFormResources`. -/
def updateResources (gs : GameState) (currentTime : ℚ) : GameState :=
  if gs.lastUpdate = 0 then { gs with lastUpdate := currentTime }
  else
    let timeDiff := currentTime - gs.lastUpdate
    let production := calculateProduction gs
    tryFormResources
      { gs with
        keystrokes := gs.keystrokes + production * timeDiff
        lastUpdate := currentTime }

/-- A sequence of production ticks at the given times (each tick is one
`UpdateResources` call). -/
def applyTicks (gs : GameState) (ts : List ℚ) : GameState :=
  ts.foldl updateResources gs

/-- upgrades.go `UpgradeDefinition`. -/
structure UpgradeDefinition where
  id : String
  name : String
  description : String
  baseCost : ℚ
  costMultiplier : ℚ
  baseEffect : ℚ
  effectMultiplier : ℚ
  maxLevel : Int
  requiredLevel : Int
  category : String
deriving DecidableEq, Repr

/-- upgrades.go `initializeUpgrades`: the immutable upgrade catalog (the Go
`definitions` map is keyed by `ID`; the IDs below are pairwise distinct). -/
def initializeUpgrades : List UpgradeDefinition :=
  [ { id := "typing_speed"
    , name := "Faster Typing"
    , description := "Increase keystroke generation speed"
    , baseCost := 50
    , costMultiplier := 3 / 2
    , baseEffect := 1 / 2
    , effectMultiplier := 6 / 5
    , maxLevel := 50
    , requiredLevel := 1
    , category := "production" }
  , { id := "vocabulary"
    , name := "Better Vocabulary"
    , description := "Improve word formation rate"
    , baseCost := 200
    , costMultiplier := 9 / 5
    , baseEffect := 1
    , effectMultiplier := 13 / 10
    , maxLevel := 25
    , requiredLevel := 5
    , category := "production" }
  , { id := "programming"
    , name := "Programming Skills"
    , description := "Increase program creation efficiency"
    , baseCost := 1000
    , costMultiplier := 2
    , baseEffect := 5
    , effectMultiplier := 3 / 2
    , maxLevel := 20
    , requiredLevel := 10
    , category := "production" }
  , { id := "ai_efficiency"
    , name := "AI Efficiency"
    , description := "Boost automation production"
    , baseCost := 5000
    , costMultiplier := 5 / 2
    , baseEffect := 20
    , effectMultiplier := 9 / 5
    , maxLevel := 15
    , requiredLevel := 20
    , category := "production" }
  , { id := "story_progress"
    , name := "Story Insight"
    , description := "Unlock story chapters faster"
    , baseCost := 100
    , costMultiplier := 13 / 10
    , baseEffect := 0
    , effectMultiplier := 1
    , maxLevel := 10
    , requiredLevel := 1
    , category := "story" } ]

/-- upgrades.go `GetDefinition`: look an upgrade type up in the catalog
(Go returns an error for an unknown type, modelled by `none`). -/
def getDefinition (t : String) : Option UpgradeDefinition :=
  initializeUpgrades.find? (fun d => d.id = t)

/-- upgrades.go `CalculateCost`: error for an unknown type; `math.Inf(1)` when
`level > MaxLevel`; otherwise `BaseCost * CostMultiplier^(level-1)`. -/
def calculateCost (t : String) (level : Int) : Option CostValue :=
  (getDefinition t).map fun d =>
    if d.maxLevel < level then CostValue.posInf
    else CostValue.finite (d.baseCost * d.costMultiplier ^ (level - 1))

/-- upgrades.go `CalculateEffect`: error for an unknown type; `0` at level 0;
otherwise `BaseEffect * EffectMultiplier^(level-1)`. -/
def calculateEffect (t : String) (level : Int) : Option ℚ :=
  (getDefinition t).map fun d =>
    if level = 0 then 0 else d.baseEffect * d.effectMultiplier ^ (level - 1)

/-- Lookup in the `Upgrades` association list (Go `gs.Upgrades[key]`). -/
def lookupUpgrade (l : List (String × Upgrade)) (k : String) : Option Upgrade :=
  (l.find? (fun p => p.1 = k)).map (fun p => p.2)

/-- Insert-or-replace in the `Upgrades` association list
(Go `gs.Upgrades[key] = upgrade`). -/
def insertUpgrade (l : List (String × Upgrade)) (k : String) (v : Upgrade) :
    List (String × Upgrade) :=
  if l.any (fun p => p.1 = k) then
    l.map (fun p => if p.1 = k then (k, v) else p)
  else l ++ [(k, v)]

/-- upgrades.go: the next level a purchase would produce
(`currentLevel + 1`, or `1` when the upgrade is not yet owned). -/
def nextPurchaseLevel (gs : GameState) (t : String) : Int :=
  match lookupUpgrade gs.upgrades t with
  | some u => u.level + 1
  | none => 1

/-- upgrades.go `CanPurchase`: error for unknown type; `false` when the player
level is too low or the upgrade is at max level; otherwise affordability of
the cost of the next level. -/
def canPurchase (gs : GameState) (t : String) : Except String Bool :=
  match getDefinition t with
  | none => Except.error ("upgrade type " ++ t ++ " not found")
  | some d =>
    if gs.currentLevel < d.requiredLevel then Except.ok false
    else
      let atMax : Bool :=
        match lookupUpgrade gs.upgrades t with
        | some u => decide (d.maxLevel ≤ u.level)
        | none => false
      if atMax then Except.ok false
      else
        match calculateCost t (nextPurchaseLevel gs t) with
        | none => Except.error ("upgrade type " ++ t ++ " not found")
        | some c => Except.ok (canAffordCost gs c)

/-- upgrades.go `PurchaseUpgrade`. The Go function mutates `gs` in place, so
the embedding returns the (possibly partially updated) state alongside the
`error` result; every early `return err` exits with whatever mutations had
already been applied at that point. `now` is `time.Now()` for `PurchasedAt`. -/
def purchaseUpgrade (gs : GameState) (t : String) (now : ℚ) :
    Except String Unit × GameState :=
  match canPurchase gs t with
  | Except.error e => (Except.error e, gs)
  | Except.ok false => (Except.error ("cannot purchase upgrade " ++ t), gs)
  | Except.ok true =>
    match getDefinition t with
    | none => (Except.error ("upgrade type " ++ t ++ " not found"), gs)
    | some d =>
      let newLevel := nextPurchaseLevel gs t
      match calculateCost t newLevel with
      | none => (Except.error ("upgrade type " ++ t ++ " not found"), gs)
      | some cost =>
        let gs1 := spendResourcesCost gs cost
        match calculateEffect t newLevel with
        | none => (Except.error ("upgrade type " ++ t ++ " not found"), gs1)
        | some effect =>
          let upg : Upgrade :=
            { id := t
            , type := t
            , level := newLevel
            , cost := cost
            , effect := effect
            , description := d.name ++ " (Level " ++ toString newLevel ++ ")"
            , purchasedAt := now }
          let gs2 := { gs1 with upgrades := insertUpgrade gs1.upgrades t upg }
          let gs3 :=
            if t = "story_progress" then
              { gs2 with storyProgress := gs2.storyProgress + newLevel }
            else gs2
          let gs4 := addNotification gs3 ("🎉 Purchased " ++ d.name ++ "!")
          (Except.ok (), updateProduction gs4)

/-- story.go `checkUpgradeTriggers`, one arm of the `switch unlockType`:
the named resource-threshold test for a single unlock tag (unknown tags fall
through to `false`). -/
def unlockTypeSatisfied (st : GameState) (s : String) : Bool :=
  if s = "vocabulary_boost" then decide (5 ≤ st.words)
  else if s = "word_formation" then decide (20 ≤ st.words)
  else if s = "basic_programming" then decide (5 ≤ st.programs)
  else if s = "advanced_programming" then decide (15 ≤ st.programs)
  else if s = "algorithm_mastery" then decide (30 ≤ st.programs)
  else if s = "data_mastery" then decide (50 ≤ st.programs) && decide (100 ≤ st.words)
  else if s = "network_programming" then decide (5 ≤ st.aiAutomations)
  else if s = "ai_automation" then decide (10 ≤ st.aiAutomations)
  else if s = "transcendence" then
    decide (25 ≤ st.aiAutomations) && decide (50 ≤ st.currentLevel)
  else false

/-- story.go `checkUpgradeTriggers`: true when any tag in `chapter.Unlocks`
passes its threshold test (an empty `Unlocks` list yields `false`). -/
def checkUpgradeTriggers (st : GameState) (c : StoryChapter) : Bool :=
  c.unlocks.any (unlockTypeSatisfied st)

/-- story.go `CheckTriggers`, the loop body over the catalog: skip chapters
already unlocked; unlock on the level trigger, else on the upgrade trigger;
thread the `unlocked` set and collect the newly unlocked chapters in catalog
order. -/
def checkTriggersLoop (st : GameState) :
    List StoryChapter → List Int → List StoryChapter × List Int
  | [], unl => ([], unl)
  | c :: rest, unl =>
    if c.id ∈ unl then checkTriggersLoop st rest unl
    else if c.triggerLevel ≤ st.currentLevel then
      let r := checkTriggersLoop st rest (c.id :: unl)
      (c :: r.1, r.2)
    else if checkUpgradeTriggers st c then
      let r := checkTriggersLoop st rest (c.id :: unl)
      (c :: r.1, r.2)
    else checkTriggersLoop st rest unl

/-- story.go `StoryManager.CheckTriggers`: returns the newly unlocked
chapters and the manager with its grown `unlocked` set. -/
def checkTriggers (sm : StoryManager) (st : GameState) :
    List StoryChapter × StoryManager :=
  let r := checkTriggersLoop st sm.chapters sm.unlocked
  (r.1, { sm with unlocked := r.2 })

/-- session.go `Session` (the per-connection game session). The Bubbletea
program handle is modelled by `programRunning`, the cancellation context by
`active`; timestamps are rationals. -/
structure SshSession where
  id : String
  playerID : String
  username : String
  gameState : Option GameState
  programRunning : Bool
  active : Bool
  lastActive : ℚ
  createdAt : ℚ
deriving DecidableEq, Repr

/-- session.go `Session.Stop`: fire the cancellation (`cancel()`) and quit
the Bubbletea program. It touches nothing else — in particular it performs
no persistence call. -/
def sessionStop (s : SshSession) : SshSession :=
  { s with active := false, programRunning := false }

/-- session.go `Session.Cleanup`: calls `Stop`; the remaining body only
logs. -/
def sessionCleanup (s : SshSession) : SshSession :=
  sessionStop s

/-- session.go `Session.InitializeGame`: unconditionally constructs a fresh
`game.NewGameState(s.PlayerID)`. It has no access to any persistence gateway
and performs no load. -/
def initializeGame (s : SshSession) (now : ℚ) : SshSession :=
  { s with gameState := some (newGameState s.playerID now) }

/-- server.go `Server`: the SSH server. Only `config.MaxSessions` and the
`sessions map[string]*Session` matter to the claims; the struct holds no
database handle. -/
structure Server where
  maxSessions : Int
  sessions : List (String × SshSession)
deriving DecidableEq, Repr

/-- server.go `AddSession`: unconditional insert under the server lock.
There is no capacity check in this function. -/
def addSession (srv : Server) (sessionID : String) (s : SshSession) : Server :=
  if srv.sessions.any (fun p => p.1 = sessionID) then
    { srv with
      sessions := srv.sessions.map (fun p => if p.1 = sessionID then (sessionID, s) else p) }
  else { srv with sessions := srv.sessions ++ [(sessionID, s)] }

/-- server.go `GetSessionCount`: `len(s.sessions)`. -/
def getSessionCount (srv : Server) : Int :=
  srv.sessions.length

/-- server.go `IsAtCapacity`: `count >= MaxSessions`. -/
def isAtCapacity (srv : Server) : Bool :=
  srv.maxSessions ≤ getSessionCount srv

/-- server.go `RemoveSession`: if present, run the session method `Cleanup`
(which has no effect on the map or any store) and delete the map entry;
absent IDs are a no-op. -/
def removeSession (srv : Server) (sessionID : String) : Server :=
  if srv.sessions.any (fun p => p.1 = sessionID) then
    { srv with sessions := srv.sessions.filter (fun p => ¬ p.1 = sessionID) }
  else srv

/-- middleware.go `sessionMiddleware`, the admission decision: reject
(`sess.Exit(1)`) when `IsAtCapacity()`, otherwise create the session and
`AddSession` it. The capacity check and the insertion are two separate
calls, each taking the lock on its own. -/
def sessionMiddlewareAdmit (srv : Server) (sessionID : String) (s : SshSession) :
    Option Server :=
  if isAtCapacity srv then none else some (addSession srv sessionID s)

/-- middleware.go `validatePublicKey`: accepts every non-nil public key.
The key is modelled by its fingerprint string. -/
def validatePublicKey (pk : Option String) : Bool :=
  match pk with
  | none => false
  | some _ => true

/-- middleware.go `authMiddleware`, the authentication decision: reject when
the key fails `validatePublicKey`, otherwise accept with
`playerID = "player_" + username`. No stored fingerprint is ever consulted. -/
def authMiddlewareDecision (username : String) (pk : Option String) :
    Option String :=
  if validatePublicKey pk then some ("player_" ++ username) else none

/-- session.go `NewSession`: a fresh session with a live cancellation
context, no game state yet and no running program. -/
def newSession (sessionID playerID username : String) (now : ℚ) : SshSession :=
  { id := sessionID
  , playerID := playerID
  , username := username
  , gameState := none
  , programRunning := false
  , active := true
  , lastActive := now
  , createdAt := now }

/-- db/types.go `GameState`: the database-layer game state, which carries
only the eleven scalar columns (no notifications, no upgrades). -/
structure DbGameState where
  playerID : String
  currentLevel : Int
  keystrokes : ℚ
  words : Int
  programs : Int
  aiAutomations : Int
  storyProgress : Int
  productionRate : ℚ
  keystrokesPerSecond : ℚ
  lastSave : ℚ
  lastUpdate : ℚ
deriving DecidableEq, Repr

/-- One row of the `game_states` table: the eleven scalar columns (as a
`DbGameState`, keyed by `player_id`) plus the `notifications` and `upgrades`
TEXT columns. -/
structure GameStateRow where
  scalars : DbGameState
  notifications : String
  upgrades : String
deriving DecidableEq, Repr

/-- sqlite.go `SaveGameState`: `INSERT OR REPLACE` keyed on the
`player_id` primary key, writing the scalar columns of the state and the constant
literals `"[]"` and `"{}"` (written `"\x7b\x7d"` here) for the
`notifications` and `upgrades` columns. -/
def saveGameState (tbl : List GameStateRow) (st : DbGameState) : List GameStateRow :=
  let row : GameStateRow := { scalars := st, notifications := "[]", upgrades := "\x7b\x7d" }
  if tbl.any (fun r => r.scalars.playerID = st.playerID) then
    tbl.map (fun r => if r.scalars.playerID = st.playerID then row else r)
  else tbl ++ [row]

/-- sqlite.go `LoadGameState`: `SELECT` of the eleven scalar columns only
(`notifications` and `upgrades` are not in the column list); `sql.ErrNoRows`
becomes the not-found error. -/
def loadGameState (tbl : List GameStateRow) (playerID : String) :
    Except String DbGameState :=
  match tbl.find? (fun r => r.scalars.playerID = playerID) with
  | none => Except.error ("game state not found for player: " ++ playerID)
  | some r => Except.ok r.scalars

/-- db/types.go `LeaderboardEntry`. -/
structure LeaderboardEntry where
  playerID : String
  username : String
  keystrokesPerSec : ℚ
  totalKeystrokes : ℚ
  words : Int
  programs : Int
  aiAutomations : Int
  level : Int
  rank : Int
  updatedAt : ℚ
deriving DecidableEq, Repr

/-- sqlite.go `GetLeaderboard`, the window function
`RANK() OVER (ORDER BY total_keystrokes DESC)`: the rank of a row is 1 plus the
number of rows (in the whole table) with strictly greater
`total_keystrokes`; tied rows share a rank and a gap follows. -/
def sqlRank (rows : List LeaderboardEntry) (e : LeaderboardEntry) : Int :=
  1 + (rows.countP (fun r => e.totalKeystrokes < r.totalKeystrokes) : Int)

/-- sqlite.go `GetLeaderboard`: the query orders by `total_keystrokes DESC`
(SQL leaves the relative order of tied rows unspecified, so `rows` here is
the table contents in whatever total-descending order the engine produced),
assigns `RANK()` per row and applies `LIMIT`. -/
def getLeaderboard (rows : List LeaderboardEntry) (limit : Nat) :
    List LeaderboardEntry :=
  (rows.map (fun e => { e with rank := sqlRank rows e })).take limit

/-- The deferred teardown of `sessionMiddleware` (`RemoveSession`, which runs
`Cleanup` = `Stop` and deletes the map entry). None of these functions
receives a database handle — `Server` has no database field at all — so the
persisted `game_states` table necessarily passes through unchanged; this
definition threads the table to make that explicit. -/
def removeSessionWithStore (srv : Server) (tbl : List GameStateRow)
    (sessionID : String) : Server × List GameStateRow :=
  (removeSession srv sessionID, tbl)

instance {ε α : Type} [DecidableEq ε] [DecidableEq α] : DecidableEq (Except ε α) :=
  fun a b =>
    match a, b with
    | Except.error e, Except.error f =>
      if h : e = f then Decidable.isTrue (h ▸ rfl)
      else Decidable.isFalse (fun c => h (Except.error.inj c))
    | Except.ok x, Except.ok y =>
      if h : x = y then Decidable.isTrue (h ▸ rfl)
      else Decidable.isFalse (fun c => h (Except.ok.inj c))
    | Except.error _, Except.ok _ => Decidable.isFalse Except.noConfusion
    | Except.ok _, Except.error _ => Decidable.isFalse Except.noConfusion

/-- C6: for every catalog definition and every level `n` with
`1 ≤ n ≤ MaxLevel`, `CalculateCost` returns exactly
`BaseCost * CostMultiplier^(n-1)` (exact geometric scaling, no rounding);
in particular the TypingSpeed costs at levels 1, 2, 3 are 50, 75 and 112.5. -/
theorem upgrade_cost_geometric :
    (∀ t d, getDefinition t = some d → ∀ n : Int, 1 ≤ n → n ≤ d.maxLevel →
      calculateCost t n
        = some (CostValue.finite (d.baseCost * d.costMultiplier ^ (n - 1))))
    ∧ calculateCost "typing_speed" 1 = some (CostValue.finite 50)
    ∧ calculateCost "typing_speed" 2 = some (CostValue.finite 75)
    ∧ calculateCost "typing_speed" 3 = some (CostValue.finite (225 / 2)) := by
  refine ⟨?_, ?_, ?_, ?_⟩
  · intro t d h n _ h2
    simp [calculateCost, h, show ¬(d.maxLevel < n) from not_lt.mpr h2]
  all_goals
    norm_num [calculateCost, getDefinition, initializeUpgrades]

/-- Witness for C6: the general cost formula applied to TypingSpeed at
level 2. -/
theorem upgrade_cost_geometric_witness :
    getDefinition "typing_speed" = some
      { id := "typing_speed"
      , name := "Faster Typing"
      , description := "Increase keystroke generation speed"
      , baseCost := 50
      , costMultiplier := 3 / 2
      , baseEffect := 1 / 2
      , effectMultiplier := 6 / 5
      , maxLevel := 50
      , requiredLevel := 1
      , category := "production" }
    ∧ (1 : Int) ≤ 2 ∧ (2 : Int) ≤ 50
    ∧ calculateCost "typing_speed" 2
        = some (CostValue.finite ((50 : ℚ) * (3 / 2 : ℚ) ^ ((2 : Int) - 1))) := by
  refine ⟨rfl, by norm_num, by norm_num, ?_⟩
  exact upgrade_cost_geometric.1 "typing_speed" _ rfl 2 (by norm_num) (by norm_num)

/-- C2 (code_bug): the implementation plan of the repository itself documents
fingerprint verification (`keysMatch(pk, player.SSHKey)`, auth failure
otherwise) as implemented, but `authMiddleware` accepts every non-nil public
key and never consults storage. With a stored fingerprint "SHA256:aaaa" for
user "alice", a connection offering the non-matching key "SHA256:bbbb" still
authenticates as `player_alice` instead of failing. -/
theorem authenticate_fingerprint_code_bug :
    authMiddlewareDecision "alice" (some "SHA256:bbbb") = some "player_alice"
    ∧ "SHA256:bbbb" ≠ "SHA256:aaaa"
    ∧ validatePublicKey (some "SHA256:bbbb") = true := by
  refine ⟨rfl, by decide, rfl⟩

/-- C3 (code_bug): the implementation plan documents session-state loading
(`db.LoadGameState(playerID)`, falling back to `NewGameState` only on error)
as implemented, but `Session.InitializeGame` unconditionally constructs
`game.NewGameState(s.PlayerID)` and never consults the persistence gateway.
Failing input: player `player_alice` has a stored state at level 5, yet the
initialized session state is the fresh level-1 state. -/
theorem initializeGame_ignores_persistence :
    (let stored : DbGameState :=
      { playerID := "player_alice", currentLevel := 5, keystrokes := 42
      , words := 3, programs := 1, aiAutomations := 0, storyProgress := 0
      , productionRate := 1, keystrokesPerSecond := 1, lastSave := 6, lastUpdate := 6 }
    let tbl := saveGameState [] stored
    loadGameState tbl "player_alice" = Except.ok stored
    ∧ stored.currentLevel = 5)
    ∧ (initializeGame (newSession "s1" "player_alice" "alice" 7) 7).gameState
        = some (newGameState "player_alice" 7)
    ∧ (newGameState "player_alice" 7).currentLevel = 1 := by
  exact ⟨⟨rfl, rfl⟩, rfl, rfl⟩

/-- C1, counterexample: `AddSession` performs no capacity check. On a
registry already at capacity (`MaxSessions = 1` with one live session,
`IsAtCapacity` true), `AddSession` still registers the new session and the
session count reaches 2 > `MaxSessions`. -/
theorem sessionRegistry_capacity_counterexample :
    (let srv : Server :=
      { maxSessions := 1, sessions := [("s1", newSession "s1" "p1" "alice" 0)] }
    isAtCapacity srv = true
    ∧ getSessionCount (addSession srv "s2" (newSession "s2" "p2" "bob" 0)) = 2
    ∧ srv.maxSessions = 1) := by
  refine ⟨rfl, rfl, rfl⟩

lemma any_map_replace_key (l : List (String × SshSession)) (k : String) (v : SshSession)
    (h : l.any (fun p => p.1 = k) = true) :
    (l.map (fun p => if p.1 = k then (k, v) else p)).any (fun p => p.1 = k) = true := by
  rw [List.any_eq_true] at h ⊢
  obtain ⟨p, hp, hpk⟩ := h
  refine ⟨(k, v), ?_, by simp⟩
  have hmap : (fun q : String × SshSession => if q.1 = k then (k, v) else q) p = (k, v) := by
    have : p.1 = k := by simpa using hpk
    simp [this]
  exact List.mem_map.mpr ⟨p, hp, hmap⟩

/-- C1, amended: `AddSession` never fails — it unconditionally registers the
session (the key becomes present, growing the count by at most one); the
capacity check lives separately in `sessionMiddleware`, whose sequential
admission path rejects at capacity and otherwise produces a registry within
`MaxSessions`. -/
theorem sessionRegistry_capacity_amended (srv : Server) (sessionID : String)
    (s : SshSession) :
    ((addSession srv sessionID s).sessions.any (fun p => p.1 = sessionID)) = true
    ∧ getSessionCount (addSession srv sessionID s) ≤ getSessionCount srv + 1
    ∧ (isAtCapacity srv = true → sessionMiddlewareAdmit srv sessionID s = none)
    ∧ (∀ srv', sessionMiddlewareAdmit srv sessionID s = some srv' →
        getSessionCount srv' ≤ srv.maxSessions) := by
  refine ⟨?_, ?_, ?_, ?_⟩
  · rw [addSession]
    split
    · next h => exact any_map_replace_key _ _ _ h
    · simp
  · rw [addSession]
    split
    · simp [getSessionCount]
    · simp [getSessionCount]
  · intro h
    simp [sessionMiddlewareAdmit, h]
  · intro srv' h
    rw [sessionMiddlewareAdmit] at h
    split at h
    · exact absurd h (by simp)
    · next hcap =>
      have hlt : getSessionCount srv < srv.maxSessions := by
        by_contra hge
        exact hcap (by simp only [isAtCapacity, decide_eq_true_eq]; omega)
      have hcount : getSessionCount (addSession srv sessionID s)
          ≤ getSessionCount srv + 1 := by
        rw [addSession]
        split
        · simp [getSessionCount]
        · simp [getSessionCount]
      obtain rfl : addSession srv sessionID s = srv' := by
        simpa using h
      omega

/-- Witness for the amended C1 theorem: a registry of capacity 2 holding one
session admits a second one and stays within `MaxSessions`. -/
theorem sessionRegistry_capacity_witness :
    (let srv : Server := { maxSessions := 2, sessions := [("a", newSession "a" "p1" "u1" 0)] }
    let s2 := newSession "b" "p2" "u2" 0
    sessionMiddlewareAdmit srv "b" s2 = some (addSession srv "b" s2)
    ∧ getSessionCount (addSession srv "b" s2) ≤ srv.maxSessions) := by
  exact ⟨rfl, (sessionRegistry_capacity_amended _ "b" _).2.2.2 _ rfl⟩

/-- C4, counterexample: the `Stopping → Terminated` path performs no save at
all. A live session whose in-memory state has 40 keystrokes is torn down
(`RemoveSession` → `Cleanup` → `Stop`) while the persisted table still holds
the stale 10-keystroke state, and the table is untouched by the teardown —
zero final saves, not exactly one. -/
theorem final_save_counterexample :
    (let live : GameState := { newGameState "player_alice" 1 with keystrokes := 40 }
    let sess : SshSession := { newSession "s1" "player_alice" "alice" 0 with gameState := some live }
    let srv : Server := { maxSessions := 100, sessions := [("s1", sess)] }
    let stored : DbGameState :=
      { playerID := "player_alice", currentLevel := 1, keystrokes := 10, words := 0
      , programs := 0, aiAutomations := 0, storyProgress := 0, productionRate := 1
      , keystrokesPerSecond := 1, lastSave := 0, lastUpdate := 0 }
    let tbl : List GameStateRow :=
      [{ scalars := stored, notifications := "[]", upgrades := "\x7b\x7d" }]
    removeSessionWithStore srv tbl "s1" = ({ maxSessions := 100, sessions := [] }, tbl)
    ∧ loadGameState tbl "player_alice" = Except.ok stored
    ∧ stored.keystrokes = 10 ∧ live.keystrokes = 40) := by
  exact ⟨rfl, rfl, rfl, rfl⟩

/-- C4, amended: teardown deregisters the session (idempotently) and stops
it, but writes nothing to the persistence layer: the stored table passes
through `RemoveSession` unchanged, for every server, table and session ID. -/
theorem session_teardown_no_save (srv : Server) (tbl : List GameStateRow)
    (sessionID : String) :
    removeSessionWithStore srv tbl sessionID = (removeSession srv sessionID, tbl)
    ∧ ((removeSession srv sessionID).sessions.any (fun p => p.1 = sessionID)) = false
    ∧ removeSession (removeSession srv sessionID) sessionID
        = removeSession srv sessionID := by
  have hstable : ∀ x : Server, (x.sessions.any (fun p => p.1 = sessionID)) = false →
      removeSession x sessionID = x := by
    intro x hx
    simp [removeSession, hx]
  have hgone : ((removeSession srv sessionID).sessions.any (fun p => p.1 = sessionID))
      = false := by
    rw [removeSession]
    split
    · next h =>
      simp only [List.any_eq_false]
      rintro ⟨a, b⟩ hp
      have hfilt := List.of_mem_filter hp
      simpa using hfilt
    · next h => exact Bool.eq_false_iff.mpr h
  exact ⟨rfl, hgone, hstable _ hgone⟩

/-- Two tied leaderboard rows and one lower row, used to exhibit the RANK()
tie behaviour. -/
def lbExampleRows : List LeaderboardEntry :=
  [ { playerID := "alice", username := "alice", keystrokesPerSec := 1
    , totalKeystrokes := 100, words := 0, programs := 0, aiAutomations := 0
    , level := 1, rank := 0, updatedAt := 0 }
  , { playerID := "bob", username := "bob", keystrokesPerSec := 1
    , totalKeystrokes := 100, words := 0, programs := 0, aiAutomations := 0
    , level := 1, rank := 0, updatedAt := 0 }
  , { playerID := "carol", username := "carol", keystrokesPerSec := 1
    , totalKeystrokes := 50, words := 0, programs := 0, aiAutomations := 0
    , level := 1, rank := 0, updatedAt := 0 } ]

/-- The same table contents with the two tied rows swapped — an equally
valid result of `ORDER BY total_keystrokes DESC`, since SQL leaves the
relative order of ties unspecified. -/
def lbExampleRowsSwapped : List LeaderboardEntry :=
  [ { playerID := "bob", username := "bob", keystrokesPerSec := 1
    , totalKeystrokes := 100, words := 0, programs := 0, aiAutomations := 0
    , level := 1, rank := 0, updatedAt := 0 }
  , { playerID := "alice", username := "alice", keystrokesPerSec := 1
    , totalKeystrokes := 100, words := 0, programs := 0, aiAutomations := 0
    , level := 1, rank := 0, updatedAt := 0 }
  , { playerID := "carol", username := "carol", keystrokesPerSec := 1
    , totalKeystrokes := 50, words := 0, programs := 0, aiAutomations := 0
    , level := 1, rank := 0, updatedAt := 0 } ]

/-- C9, counterexample: with two rows tied at 100 keystrokes and one at 50,
`GetLeaderboard` (SQL `RANK()`) assigns ranks `[1, 1, 3]`, not the claimed
dense `1..N = [1, 2, 3]`; and the tie order follows whatever order the
engine produced rather than being broken deterministically by PlayerID —
an equally valid input ordering yields bob before alice. -/
theorem leaderboard_rank_counterexample :
    ((getLeaderboard lbExampleRows 3).map (fun e => e.rank) = [1, 1, 3])
    ∧ ¬ ((getLeaderboard lbExampleRows 3).map (fun e => e.rank) = [1, 2, 3])
    ∧ ((getLeaderboard lbExampleRows 3).map (fun e => e.playerID)
        = ["alice", "bob", "carol"])
    ∧ ((getLeaderboard lbExampleRowsSwapped 3).map (fun e => e.playerID)
        = ["bob", "alice", "carol"]) := by
  refine ⟨by decide, by decide, by decide, by decide⟩

/-- C9, amended: for a table read back in any `total_keystrokes`-descending
order, `GetLeaderboard` returns the first `limit` rows in that order, each
stamped with SQL `RANK()` semantics — rank = 1 + the number of rows with
strictly greater totals, so tied rows share a rank and a gap follows — and
the output stays sorted descending. -/
theorem leaderboard_query_rank_semantics (rows : List LeaderboardEntry) (limit : Nat)
    (hs : rows.Sorted (fun a b => b.totalKeystrokes ≤ a.totalKeystrokes)) :
    (∀ e ∈ getLeaderboard rows limit,
        e.rank = 1 + (rows.countP (fun r => e.totalKeystrokes < r.totalKeystrokes) : Int))
    ∧ (getLeaderboard rows limit).Sorted (fun a b => b.totalKeystrokes ≤ a.totalKeystrokes)
    ∧ (getLeaderboard rows limit).length = min limit rows.length
    ∧ (getLeaderboard rows limit).map (fun e => e.playerID)
        = (rows.take limit).map (fun e => e.playerID) := by
  refine ⟨?_, ?_, ?_, ?_⟩
  · intro e he
    have hm : e ∈ rows.map (fun a => { a with rank := sqlRank rows a }) :=
      List.mem_of_mem_take he
    obtain ⟨a, _, rfl⟩ := List.mem_map.mp hm
    simp [sqlRank]
  · have hmap : (rows.map (fun a => { a with rank := sqlRank rows a })).Sorted
        (fun a b => b.totalKeystrokes ≤ a.totalKeystrokes) := by
      rw [List.Sorted, List.pairwise_map]
      exact hs
    exact hmap.take
  · simp [getLeaderboard]
  · rw [getLeaderboard, ← List.map_take, List.map_map]
    exact List.map_congr_left (fun e _ => rfl)

/-- Witness for the amended C9 theorem at the concrete three-row table. -/
theorem leaderboard_query_witness :
    lbExampleRows.Sorted (fun a b => b.totalKeystrokes ≤ a.totalKeystrokes)
    ∧ ((∀ e ∈ getLeaderboard lbExampleRows 3,
          e.rank = 1 + (lbExampleRows.countP
            (fun r => e.totalKeystrokes < r.totalKeystrokes) : Int))
        ∧ (getLeaderboard lbExampleRows 3).Sorted
            (fun a b => b.totalKeystrokes ≤ a.totalKeystrokes)
        ∧ (getLeaderboard lbExampleRows 3).length = min 3 lbExampleRows.length
        ∧ (getLeaderboard lbExampleRows 3).map (fun e => e.playerID)
            = (lbExampleRows.take 3).map (fun e => e.playerID)) := by
  exact ⟨by decide, leaderboard_query_rank_semantics lbExampleRows 3 (by decide)⟩

lemma find_saved_row (tbl : List GameStateRow) (st : DbGameState) :
    (saveGameState tbl st).find? (fun r => r.scalars.playerID = st.playerID)
      = some { scalars := st, notifications := "[]", upgrades := "\x7b\x7d" } := by
  rw [saveGameState]
  split
  · next h =>
    rw [List.any_eq_true] at h
    obtain ⟨r0, hr0, hr0k⟩ := h
    induction tbl with
    | nil => simp at hr0
    | cons hd tl ih =>
      by_cases hk : hd.scalars.playerID = st.playerID
      · simp [hk]
      · rcases List.mem_cons.mp hr0 with rfl | hmem
        · exact absurd (by simpa using hr0k) hk
        · simpa [hk] using ih hmem
  · next h =>
    induction tbl with
    | nil => simp
    | cons hd tl ih =>
      have hhd : ¬ hd.scalars.playerID = st.playerID := by
        intro hc
        exact h (by simp [List.any_cons, hc])
      have htl : ¬ tl.any (fun r => r.scalars.playerID = st.playerID) = true := by
        intro hc
        exact h (by simp [List.any_cons, hc])
      simpa [hhd] using ih htl

/-- C10: `SaveGameState` writes the constant literals `"[]"` and `"{}"` into
the `notifications` and `upgrades` columns for every state; a following
`LoadGameState` restores exactly the eleven scalar fields, and its result
never depends on the `notifications`/`upgrades` columns at all — no
purchased upgrade or pending notification is ever restored. -/
theorem saveGameState_constant_columns (tbl : List GameStateRow) (st : DbGameState) :
    ((saveGameState tbl st).find? (fun r => r.scalars.playerID = st.playerID)
      = some { scalars := st, notifications := "[]", upgrades := "\x7b\x7d" })
    ∧ loadGameState (saveGameState tbl st) st.playerID = Except.ok st
    ∧ (∀ (f g : GameStateRow → String) (pid : String),
        loadGameState
            (tbl.map (fun r => { r with notifications := f r, upgrades := g r })) pid
          = loadGameState tbl pid) := by
  refine ⟨find_saved_row tbl st, ?_, ?_⟩
  · rw [loadGameState, find_saved_row tbl st]
  · intro f g pid
    rw [loadGameState, loadGameState, List.find?_map]
    have hpred : ((fun r : GameStateRow => decide (r.scalars.playerID = pid)) ∘
        (fun r => { r with notifications := f r, upgrades := g r }))
          = (fun r : GameStateRow => decide (r.scalars.playerID = pid)) := by
      funext r
      rfl
    rw [hpred]
    cases hfind : tbl.find? (fun r => r.scalars.playerID = pid) <;> simp

lemma checkTriggersLoop_unlocked_mono (st : GameState) :
    ∀ (chs : List StoryChapter) (unl : List Int) (x : Int), x ∈ unl →
      x ∈ (checkTriggersLoop st chs unl).2 := by
  intro chs
  induction chs with
  | nil => intro unl x hx; simpa [checkTriggersLoop] using hx
  | cons c rest ih =>
    intro unl x hx
    rw [checkTriggersLoop]
    split
    · exact ih unl x hx
    · split
      · exact ih (c.id :: unl) x (List.mem_cons_of_mem _ hx)
      · split
        · exact ih (c.id :: unl) x (List.mem_cons_of_mem _ hx)
        · exact ih unl x hx

lemma checkTriggersLoop_returned (st : GameState) :
    ∀ (chs : List StoryChapter) (unl : List Int) (c : StoryChapter),
      c ∈ (checkTriggersLoop st chs unl).1 →
        c.id ∉ unl ∧ c.id ∈ (checkTriggersLoop st chs unl).2 := by
  intro chs
  induction chs with
  | nil => intro unl c hc; simp [checkTriggersLoop] at hc
  | cons hd rest ih =>
    intro unl c hc
    rw [checkTriggersLoop] at hc ⊢
    by_cases h1 : hd.id ∈ unl
    · rw [if_pos h1] at hc ⊢
      exact ih unl c hc
    · rw [if_neg h1] at hc ⊢
      have hbranch : ∀ (h : c ∈ hd ::
          (checkTriggersLoop st rest (hd.id :: unl)).1),
          c.id ∉ unl ∧ c.id ∈ (checkTriggersLoop st rest (hd.id :: unl)).2 := by
        intro h
        rcases List.mem_cons.mp h with rfl | htail
        · exact ⟨h1, checkTriggersLoop_unlocked_mono st rest (c.id :: unl) c.id
            (List.mem_cons_self _ _)⟩
        · have h2 := ih (hd.id :: unl) c htail
          exact ⟨fun hx => h2.1 (List.mem_cons_of_mem _ hx), h2.2⟩
      by_cases h2 : hd.triggerLevel ≤ st.currentLevel
      · rw [if_pos h2] at hc ⊢
        exact hbranch hc
      · rw [if_neg h2] at hc ⊢
        by_cases h3 : checkUpgradeTriggers st hd = true
        · rw [if_pos h3] at hc ⊢
          exact hbranch hc
        · rw [if_neg h3] at hc ⊢
          exact ih unl c hc

lemma checkTriggersLoop_sublist (st : GameState) :
    ∀ (chs : List StoryChapter) (unl : List Int),
      (checkTriggersLoop st chs unl).1.Sublist chs := by
  intro chs
  induction chs with
  | nil => intro unl; simp [checkTriggersLoop]
  | cons hd rest ih =>
    intro unl
    rw [checkTriggersLoop]
    split
    · exact (ih unl).cons hd
    · split
      · exact (ih (hd.id :: unl)).cons₂ hd
      · split
        · exact (ih (hd.id :: unl)).cons₂ hd
        · exact (ih unl).cons hd

/-- C8: over repeated `CheckTriggers` calls, the unlocked set only grows,
every returned chapter is recorded as unlocked and was not unlocked before
(so no chapter ID is ever returned twice across calls), and each call
returns its newly unlocked chapters in catalog (strictly ascending ID)
order. -/
theorem checkTriggers_monotone_no_repeat (sm : StoryManager) (st1 st2 : GameState)
    (hc : sm.chapters = getStoryChapters) :
    (∀ x ∈ sm.unlocked, x ∈ (checkTriggers sm st1).2.unlocked)
    ∧ (∀ c1 ∈ (checkTriggers sm st1).1, c1.id ∈ (checkTriggers sm st1).2.unlocked)
    ∧ (∀ c1 ∈ (checkTriggers sm st1).1,
        ∀ c2 ∈ (checkTriggers (checkTriggers sm st1).2 st2).1, c1.id ≠ c2.id)
    ∧ List.Pairwise (fun a b => a.id < b.id) (checkTriggers sm st1).1
    ∧ List.Pairwise (fun a b => a.id < b.id)
        (checkTriggers (checkTriggers sm st1).2 st2).1 := by
  have hcat : List.Pairwise (fun a b : StoryChapter => a.id < b.id) getStoryChapters := by
    decide
  refine ⟨?_, ?_, ?_, ?_, ?_⟩
  · intro x hx
    exact checkTriggersLoop_unlocked_mono st1 sm.chapters sm.unlocked x hx
  · intro c1 h1
    exact (checkTriggersLoop_returned st1 sm.chapters sm.unlocked c1 h1).2
  · intro c1 h1 c2 h2 heq
    have hin : c1.id ∈ (checkTriggers sm st1).2.unlocked :=
      (checkTriggersLoop_returned st1 sm.chapters sm.unlocked c1 h1).2
    have hout : c2.id ∉ (checkTriggers sm st1).2.unlocked :=
      (checkTriggersLoop_returned st2 (checkTriggers sm st1).2.chapters
        (checkTriggers sm st1).2.unlocked c2 h2).1
    exact hout (heq ▸ hin)
  · exact List.Pairwise.sublist
      (hc ▸ checkTriggersLoop_sublist st1 sm.chapters sm.unlocked) hcat
  · exact List.Pairwise.sublist
      (hc ▸ checkTriggersLoop_sublist st2 (checkTriggers sm st1).2.chapters
        (checkTriggers sm st1).2.unlocked) hcat

/-- Witness for C8 at the fresh story manager and a level-5 state
(Scenario D): chapter 2 (TriggerLevel 5) unlocks once and does not reappear
on the next call at the same level. -/
theorem checkTriggers_witness :
    newStoryManager.chapters = getStoryChapters
    ∧ ((checkTriggers newStoryManager
          { newGameState "p" 1 with currentLevel := 5 }).1.map (fun c => c.id) = [2])
    ∧ (checkTriggers (checkTriggers newStoryManager
          { newGameState "p" 1 with currentLevel := 5 }).2
          { newGameState "p" 1 with currentLevel := 5 }).1 = []
    ∧ (∀ c1 ∈ (checkTriggers newStoryManager
          { newGameState "p" 1 with currentLevel := 5 }).1,
        ∀ c2 ∈ (checkTriggers (checkTriggers newStoryManager
          { newGameState "p" 1 with currentLevel := 5 }).2
          { newGameState "p" 1 with currentLevel := 5 }).1, c1.id ≠ c2.id) := by
  refine ⟨rfl, by decide, by decide, ?_⟩
  exact (checkTriggers_monotone_no_repeat newStoryManager _ _ rfl).2.2.1

lemma lookupUpgrade_insertUpgrade (l : List (String × Upgrade)) (k : String) (v : Upgrade) :
    lookupUpgrade (insertUpgrade l k v) k = some v := by
  rw [insertUpgrade]
  split
  · next h =>
    rw [List.any_eq_true] at h
    obtain ⟨p0, hp0, hp0k⟩ := h
    induction l with
    | nil => simp at hp0
    | cons hd tl ih =>
      by_cases hk : hd.1 = k
      · simp [lookupUpgrade, hk]
      · rcases List.mem_cons.mp hp0 with rfl | hmem
        · exact absurd (by simpa using hp0k) hk
        · simpa [lookupUpgrade, hk] using ih hmem
  · next h =>
    induction l with
    | nil => simp [lookupUpgrade]
    | cons hd tl ih =>
      have hhd : ¬ hd.1 = k := by
        intro hc
        exact h (by simp [List.any_cons, hc])
      have htl : ¬ tl.any (fun p => p.1 = k) = true := by
        intro hc
        exact h (by simp [List.any_cons, hc])
      simpa [lookupUpgrade, hhd] using ih htl

lemma canPurchase_ok_true (gs : GameState) (t : String)
    (h : canPurchase gs t = Except.ok true) :
    ∃ d, getDefinition t = some d ∧
      ∃ q, calculateCost t (nextPurchaseLevel gs t) = some (CostValue.finite q)
        ∧ canAfford gs q = true := by
  rw [canPurchase] at h
  cases hd : getDefinition t with
  | none => rw [hd] at h; exact absurd h (by simp)
  | some d =>
    rw [hd] at h
    dsimp only at h
    refine ⟨d, rfl, ?_⟩
    by_cases h1 : gs.currentLevel < d.requiredLevel
    · rw [if_pos h1] at h
      exact absurd h (by simp)
    · rw [if_neg h1] at h
      have hc : calculateCost t (nextPurchaseLevel gs t)
          = some (if d.maxLevel < nextPurchaseLevel gs t then CostValue.posInf
              else CostValue.finite
                (d.baseCost * d.costMultiplier ^ (nextPurchaseLevel gs t - 1))) := by
        simp [calculateCost, hd]
      have hafford : canAffordCost gs
          (if d.maxLevel < nextPurchaseLevel gs t then CostValue.posInf
            else CostValue.finite
              (d.baseCost * d.costMultiplier ^ (nextPurchaseLevel gs t - 1))) = true := by
        cases hm : lookupUpgrade gs.upgrades t with
        | some u =>
          rw [hm] at h
          by_cases h3 : d.maxLevel ≤ u.level
          · rw [if_pos (by simpa using h3)] at h
            exact absurd h (by simp)
          · rw [if_neg (by simpa using h3)] at h
            rw [hc] at h
            exact Except.ok.inj h
        | none =>
          rw [hm] at h
          rw [if_neg (by simp)] at h
          rw [hc] at h
          exact Except.ok.inj h
      by_cases h4 : d.maxLevel < nextPurchaseLevel gs t
      · rw [if_pos h4] at hafford
        exact absurd hafford (by simp [canAffordCost])
      · rw [if_neg h4] at hafford
        rw [if_neg h4] at hc
        exact ⟨_, hc, hafford⟩

/-- C7: `PurchaseUpgrade` is atomic. Every error return leaves the
`GameState` byte-for-byte unchanged (upgrades map included), and a
successful return means the stored level of the upgrade became
`nextPurchaseLevel`, keystrokes dropped by exactly the computed finite cost,
and the cached production rate equals `CalculateProduction` of the resulting
state. -/
theorem purchaseUpgrade_atomic (gs : GameState) (t : String) (now : ℚ) :
    (∀ e, (purchaseUpgrade gs t now).1 = Except.error e →
      (purchaseUpgrade gs t now).2 = gs)
    ∧ ((purchaseUpgrade gs t now).1 = Except.ok () →
        ∃ q, calculateCost t (nextPurchaseLevel gs t) = some (CostValue.finite q)
          ∧ (lookupUpgrade (purchaseUpgrade gs t now).2.upgrades t).map (fun u => u.level)
              = some (nextPurchaseLevel gs t)
          ∧ (purchaseUpgrade gs t now).2.keystrokes = gs.keystrokes - q
          ∧ (purchaseUpgrade gs t now).2.productionRate
              = calculateProduction (purchaseUpgrade gs t now).2) := by
  cases hcp : canPurchase gs t with
  | error e0 =>
    constructor
    · intro e h
      simp [purchaseUpgrade, hcp]
    · intro h
      rw [purchaseUpgrade] at h
      rw [hcp] at h
      exact absurd h (by simp)
  | ok b =>
    cases b with
    | false =>
      constructor
      · intro e h
        simp [purchaseUpgrade, hcp]
      · intro h
        rw [purchaseUpgrade] at h
        rw [hcp] at h
        exact absurd h (by simp)
    | true =>
      obtain ⟨d, hd, q, hcost, haff⟩ := canPurchase_ok_true gs t hcp
      have heff : calculateEffect t (nextPurchaseLevel gs t)
          = some (if nextPurchaseLevel gs t = 0 then 0
              else d.baseEffect * d.effectMultiplier ^ (nextPurchaseLevel gs t - 1)) := by
        simp [calculateEffect, hd]
      have hspend : spendResourcesCost gs (CostValue.finite q)
          = { gs with keystrokes := gs.keystrokes - q } := by
        simp [spendResourcesCost, spendResources, haff]
      constructor
      · intro e h
        simp only [purchaseUpgrade, hcp, hd, hcost, heff] at h
        exact Except.noConfusion h
      · intro _
        refine ⟨q, hcost, ?_, ?_, ?_⟩
        · simp only [purchaseUpgrade, hcp, hd, hcost, heff, hspend, updateProduction,
            addNotification]
          split <;> simp [lookupUpgrade_insertUpgrade]
        · simp only [purchaseUpgrade, hcp, hd, hcost, heff, hspend, updateProduction,
            addNotification]
          split <;> rfl
        · simp only [purchaseUpgrade, hcp, hd, hcost, heff, hspend, updateProduction,
            addNotification]
          rfl

/-- The Scenario C starting state: a fresh player holding 10 keystrokes. -/
def scenarioCState : GameState := { newGameState "p" 1 with keystrokes := 10 }

/-- Witness for C7 (Scenario C): purchasing the 50-cost TypingSpeed upgrade
with 10 keystrokes returns `InsufficientResources`-style failure and leaves
the state — keystrokes and upgrades map included — byte-for-byte unchanged. -/
theorem purchaseUpgrade_witness :
    (purchaseUpgrade scenarioCState "typing_speed" 2).1
      = Except.error "cannot purchase upgrade typing_speed"
    ∧ (purchaseUpgrade scenarioCState "typing_speed" 2).2 = scenarioCState
    ∧ scenarioCState.keystrokes = 10 ∧ scenarioCState.upgrades = [] := by
  have h1 : (purchaseUpgrade scenarioCState "typing_speed" 2).1
      = Except.error "cannot purchase upgrade typing_speed" := by
    simp [purchaseUpgrade, canPurchase, getDefinition, initializeUpgrades,
      nextPurchaseLevel, lookupUpgrade, scenarioCState, newGameState,
      calculateCost, canAffordCost, canAfford]
    norm_num
  exact ⟨h1, (purchaseUpgrade_atomic scenarioCState "typing_speed" 2).1 _ h1, rfl, rfl⟩

/-- The state invariants the spec asserts for the production engine: every
resource count non-negative, the (settled) keystroke balance below
`WordFormationCost`, and the production inputs (base rate, stored upgrade
effects) non-negative. -/
def ValidState (gs : GameState) : Prop :=
  0 ≤ gs.keystrokes ∧ gs.keystrokes < WordFormationCost
  ∧ 0 ≤ gs.words ∧ 0 ≤ gs.programs ∧ 0 ≤ gs.aiAutomations
  ∧ 0 ≤ gs.keystrokesPerSecond
  ∧ ∀ p ∈ gs.upgrades, 0 ≤ p.2.effect

lemma formWords_spec (k : ℚ) (w : Int) (ns : List String) :
    (formWords k w ns).1 < WordFormationCost
    ∧ (0 ≤ k → 0 ≤ (formWords k w ns).1)
    ∧ w ≤ (formWords k w ns).2.1 := by
  induction k, w, ns using formWords.induct with
  | case1 k w ns h ih =>
    rw [formWords, dif_pos h]
    refine ⟨ih.1, fun _ => ih.2.1 ?_, le_trans (by omega) ih.2.2⟩
    have : (0 : ℚ) < WordFormationCost := by norm_num [WordFormationCost]
    linarith
  | case2 k w ns h =>
    rw [formWords, dif_neg h]
    exact ⟨lt_of_not_le h, fun hk => hk, le_refl w⟩

lemma formPrograms_spec (w p : Int) (ns : List String) :
    (formPrograms w p ns).1 < 10
    ∧ (0 ≤ w → 0 ≤ (formPrograms w p ns).1)
    ∧ p ≤ (formPrograms w p ns).2.1 := by
  induction w, p, ns using formPrograms.induct with
  | case1 w p ns h ih =>
    rw [formPrograms, dif_pos h]
    exact ⟨ih.1, fun _ => ih.2.1 (by omega), le_trans (by omega) ih.2.2⟩
  | case2 w p ns h =>
    rw [formPrograms, dif_neg h]
    exact ⟨by omega, fun hw => hw, le_refl p⟩

lemma formAIs_spec (p ai : Int) (ns : List String) :
    (formAIs p ai ns).1 < 5
    ∧ (0 ≤ p → 0 ≤ (formAIs p ai ns).1)
    ∧ ai ≤ (formAIs p ai ns).2.1 := by
  induction p, ai, ns using formAIs.induct with
  | case1 p ai ns h ih =>
    rw [formAIs, dif_pos h]
    exact ⟨ih.1, fun _ => ih.2.1 (by omega), le_trans (by omega) ih.2.2⟩
  | case2 p ai ns h =>
    rw [formAIs, dif_neg h]
    exact ⟨by omega, fun hp => hp, le_refl ai⟩

lemma calculateProduction_nonneg (gs : GameState)
    (hkps : 0 ≤ gs.keystrokesPerSecond) (hw : 0 ≤ gs.words)
    (hp : 0 ≤ gs.programs) (hai : 0 ≤ gs.aiAutomations)
    (hu : ∀ p ∈ gs.upgrades, 0 ≤ p.2.effect) :
    0 ≤ calculateProduction gs := by
  rw [calculateProduction]
  have hsum : 0 ≤ (gs.upgrades.map (fun p => p.2.effect)).sum := by
    apply List.sum_nonneg
    intro x hx
    obtain ⟨p, hpm, rfl⟩ := List.mem_map.mp hx
    exact hu p hpm
  have hwq : (0 : ℚ) ≤ (gs.words : ℚ) := by exact_mod_cast hw
  have hpq : (0 : ℚ) ≤ (gs.programs : ℚ) := by exact_mod_cast hp
  have haiq : (0 : ℚ) ≤ (gs.aiAutomations : ℚ) := by exact_mod_cast hai
  have h1 : (0 : ℚ) ≤ (gs.words : ℚ) * (3 / 2) := by positivity
  have h2 : (0 : ℚ) ≤ (gs.programs : ℚ) * 10 := by positivity
  have h3 : (0 : ℚ) ≤ (gs.aiAutomations : ℚ) * 100 := by positivity
  linarith

lemma tryFormResources_valid (gs : GameState)
    (hk : 0 ≤ gs.keystrokes) (hw : 0 ≤ gs.words) (hp : 0 ≤ gs.programs)
    (hai : 0 ≤ gs.aiAutomations) (hkps : 0 ≤ gs.keystrokesPerSecond)
    (hu : ∀ p ∈ gs.upgrades, 0 ≤ p.2.effect) :
    ValidState (tryFormResources gs) := by
  have h1 := formWords_spec gs.keystrokes gs.words gs.notifications
  have h2 := formPrograms_spec (formWords gs.keystrokes gs.words gs.notifications).2.1
    gs.programs (formWords gs.keystrokes gs.words gs.notifications).2.2
  have h3 := formAIs_spec
    (formPrograms (formWords gs.keystrokes gs.words gs.notifications).2.1
      gs.programs (formWords gs.keystrokes gs.words gs.notifications).2.2).2.1
    gs.aiAutomations
    (formPrograms (formWords gs.keystrokes gs.words gs.notifications).2.1
      gs.programs (formWords gs.keystrokes gs.words gs.notifications).2.2).2.2
  refine ⟨h1.2.1 hk, h1.1, ?_, ?_, ?_, hkps, hu⟩
  · exact h2.2.1 (le_trans hw h1.2.2)
  · exact h3.2.1 (le_trans hp h2.2.2)
  · exact le_trans hai h3.2.2

/-- C5: over every sequence of production ticks at non-decreasing times
applied to a valid state, all four resource counts stay non-negative and,
after the settlement pass of each tick, `Keystrokes < WordFormationCost (100)`
holds (the resulting state is again `ValidState`, so the bound holds at
every intermediate tick of the sequence as well). -/
theorem production_tick_invariants (gs : GameState) (ts : List ℚ)
    (hv : ValidState gs) (hchain : List.Chain (· ≤ ·) gs.lastUpdate ts) :
    0 ≤ (applyTicks gs ts).keystrokes
    ∧ (applyTicks gs ts).keystrokes < WordFormationCost
    ∧ 0 ≤ (applyTicks gs ts).words
    ∧ 0 ≤ (applyTicks gs ts).programs
    ∧ 0 ≤ (applyTicks gs ts).aiAutomations
    ∧ ValidState (applyTicks gs ts) := by
  have hstep : ∀ (g : GameState) (t : ℚ), ValidState g → g.lastUpdate ≤ t →
      ValidState (updateResources g t) := by
    intro g t hg ht
    obtain ⟨hk, hklt, hw, hp, hai, hkps, hu⟩ := hg
    rw [updateResources]
    split
    · exact ⟨hk, hklt, hw, hp, hai, hkps, hu⟩
    · apply tryFormResources_valid
      · have hprod : 0 ≤ calculateProduction g :=
          calculateProduction_nonneg g hkps hw hp hai hu
        have hdiff : (0 : ℚ) ≤ t - g.lastUpdate := by linarith
        simpa using add_nonneg hk (mul_nonneg hprod hdiff)
      · exact hw
      · exact hp
      · exact hai
      · exact hkps
      · exact hu
  have hmain : ∀ (ts : List ℚ) (g : GameState), ValidState g →
      List.Chain (· ≤ ·) g.lastUpdate ts → ValidState (applyTicks g ts) := by
    intro ts
    induction ts with
    | nil => intro g hg _; exact hg
    | cons t rest ih =>
      intro g hg hch
      cases hch with
      | cons h hrest =>
        have hlu : (updateResources g t).lastUpdate = t := by
          rw [updateResources]
          split <;> rfl
        exact ih (updateResources g t) (hstep g t hg h) (by rw [hlu]; exact hrest)
  have hfin := hmain ts gs hv hchain
  exact ⟨hfin.1, hfin.2.1, hfin.2.2.1, hfin.2.2.2.1, hfin.2.2.2.2.1, hfin⟩

/-- Witness for C5: a fresh state ticked at times 2 and 3 keeps all
invariants. -/
theorem production_tick_witness :
    ValidState (newGameState "p" 1)
    ∧ List.Chain (· ≤ ·) (newGameState "p" 1).lastUpdate [2, 3]
    ∧ ValidState (applyTicks (newGameState "p" 1) [2, 3]) := by
  have h1 : ValidState (newGameState "p" 1) := by
    refine ⟨by norm_num [newGameState], by norm_num [newGameState, WordFormationCost], ?_, ?_, ?_, ?_, ?_⟩
    all_goals simp [newGameState, BaseKeystrokesPerSecond]
  have h2 : List.Chain (· ≤ ·) (newGameState "p" 1).lastUpdate [2, 3] := by
    simp [newGameState]
    norm_num
  exact ⟨h1, h2, (production_tick_invariants (newGameState "p" 1) [2, 3] h1 h2).2.2.2.2.2⟩

end TermIdle
